import Mathlib

/-!
A shallow embedding of the frame-rendering core in `src/renderer/mod.rs`:
per-window surface lifecycle, the two-pass cell draw pipeline, position
smoothing, and frame orchestration.  Machine floats are interpreted in exact
rational arithmetic (`ℚ`); the Rust `as i32` cast is truncation toward zero;
drawing onto a canvas is recorded as an explicit event trace; the pixel
semantics of replaying a trace (skia's rasterizer, which is outside this
repository) is an abstract parameter.
-/

/-- Colors are abstract values; skia color-space conversions (`to_color`)
are the identity here. -/
abbrev Color := ℕ

/-- `colors::WHITE`. -/
def Color.white : Color := 1

/-- Modelled from the spec: the editor's `Colors` record of optional
background / foreground / special colors (the editor module is not part of
the embedded rendering source). -/
structure Colors where
  foreground : Option Color
  background : Option Color
  special : Option Color
deriving DecidableEq

/-- Modelled from the spec: the editor's `Style`, optional color channels
plus decoration flags. -/
structure Style where
  colors : Colors
  bold : Bool
  italic : Bool
  underline : Bool
  undercurl : Bool
  strikethrough : Bool
deriving DecidableEq

/-- Modelled from the spec: color resolution, the command's own background
channel if set, else the frame-wide default style's channel (the final
constant fallback is never reached in frames that render, because the
default style's background was already unwrapped at frame start). -/
def Style.background (s : Style) (default_colors : Colors) : Color :=
  s.colors.background.getD (default_colors.background.getD 0)

/-- Modelled from the spec: color resolution for the foreground channel. -/
def Style.foreground (s : Style) (default_colors : Colors) : Color :=
  s.colors.foreground.getD (default_colors.foreground.getD 0)

/-- Modelled from the spec: color resolution for the special channel. -/
def Style.special (s : Style) (default_colors : Colors) : Color :=
  s.colors.special.getD (default_colors.special.getD 0)

/-- skia `Rect`, stored as left/top/right/bottom. -/
structure Rect where
  left : ℚ
  top : ℚ
  right : ℚ
  bottom : ℚ
deriving DecidableEq

/-- `Rect::new(left, top, right, bottom)`. -/
def Rect.new (l t r b : ℚ) : Rect := ⟨l, t, r, b⟩

/-- skia `Rect::center_y`. -/
def Rect.center_y (r : Rect) : ℚ := (r.top + r.bottom) / 2

/-- Rectangle intersection (skia's default clip operation). -/
def Rect.inter (a b : Rect) : Rect :=
  ⟨max a.left b.left, max a.top b.top, min a.right b.right, min a.bottom b.bottom⟩

/-- skia `Paint`: the attributes this renderer mutates.  A path effect is a
dash description `(intervals, phase)`. -/
structure Paint where
  color : Color
  anti_alias : Bool
  stroke_width : ℚ
  path_effect : Option (List ℚ × ℚ)
deriving DecidableEq

/-- `Paint::new(colors::WHITE, None)` followed by `set_anti_alias(false)`
(from `Renderer::new`); skia's default stroke width is `0` and there is no
path effect. -/
def Paint.initial : Paint := ⟨Color.white, false, 0, none⟩

/-- `dash_path_effect::new(intervals, phase)`. -/
def dash_path_effect (intervals : List ℚ) (phase : ℚ) : Option (List ℚ × ℚ) :=
  some (intervals, phase)

/-- One drawing call recorded on a canvas, together with the clip and the
paint in effect when it was issued. -/
inductive Event where
  | rect (region : Rect) (clip : Option Rect) (paint : Paint)
  | line (p1 : ℚ × ℚ) (p2 : ℚ × ℚ) (clip : Option Rect) (paint : Paint)
  | text_blob (blob : ℕ) (pos : ℚ × ℚ) (clip : Option Rect) (paint : Paint)
deriving DecidableEq

/-- Background fills are the `draw_rect` calls; the foreground pass emits
only lines and text blobs. -/
def Event.is_background_fill : Event → Bool
  | .rect _ _ _ => true
  | _ => false

/-- skia `Canvas` state: the current clip, the save stack, and the trace of
drawing calls issued so far (chronological order). -/
structure Canvas where
  clip : Option Rect
  saved : List (Option Rect)
  events : List Event
deriving DecidableEq

/-- A fresh canvas: no clip, empty save stack, no events. -/
def Canvas.empty : Canvas := ⟨none, [], []⟩

/-- `Canvas::save`. -/
def Canvas.save (c : Canvas) : Canvas := { c with saved := c.clip :: c.saved }

/-- `Canvas::restore`. -/
def Canvas.restore (c : Canvas) : Canvas :=
  match c.saved with
  | [] => c
  | cl :: rest => { c with clip := cl, saved := rest }

/-- `Canvas::clip_rect(region, None, Some(false))`: intersect the clip. -/
def Canvas.clip_rect (c : Canvas) (r : Rect) : Canvas :=
  { c with clip := some (match c.clip with | none => r | some cr => cr.inter r) }

/-- Record one drawing call. -/
def Canvas.emit (c : Canvas) (e : Event) : Canvas := { c with events := c.events ++ [e] }

/-- `Canvas::draw_rect`. -/
def Canvas.draw_rect (c : Canvas) (r : Rect) (p : Paint) : Canvas :=
  c.emit (.rect r c.clip p)

/-- `Canvas::draw_line`. -/
def Canvas.draw_line (c : Canvas) (p1 p2 : ℚ × ℚ) (p : Paint) : Canvas :=
  c.emit (.line p1 p2 c.clip p)

/-- `Canvas::draw_text_blob`. -/
def Canvas.draw_text_blob (c : Canvas) (b : ℕ) (pos : ℚ × ℚ) (p : Paint) : Canvas :=
  c.emit (.text_blob b pos c.clip p)

/-- Rust `str::trim_end`: drop trailing whitespace, modelled directly on
the character list. -/
def trim_end (s : String) : String :=
  String.mk ((s.data.reverse.dropWhile Char.isWhitespace).reverse)

/-- A GPU surface: pixel dimensions (as produced by the `as i32` casts) and
the current content, one color per pixel coordinate. -/
structure Surface where
  width : ℤ
  height : ℤ
  pix : ℤ → ℤ → Color

/-- skia `Surface::draw(dst_canvas, (0.0, 0.0), None)`: an origin-aligned
copy of the full source content over the destination; destination pixels
outside the source bounds are untouched. -/
def Surface.draw_at_origin (src dst : Surface) : Surface :=
  { dst with
    pix := fun x y =>
      if 0 ≤ x ∧ x < src.width ∧ 0 ≤ y ∧ y < src.height then src.pix x y else dst.pix x y }

/-- The pixel effect of replaying a draw-event trace on surface content is
skia's rasterizer, outside this repository; it is an abstract parameter of
the embedding. -/
structure RasterModel where
  apply : (ℤ → ℤ → Color) → List Event → ℤ → ℤ → Color

/-- Modelled from the spec: the external shaping-cache capability
(`caching_shaper.rs` and `font_options.rs` are not part of the embedded
source): `update_font`, `font_base_dimensions`, `underline_position`, the
font size option (`shaper.options.size`), and `shape_cached` returning
abstract glyph-run (text-blob) handles.  Its internal state has abstract
type `σ`. -/
structure CachingShaper (σ : Type) where
  update_font : σ → String → σ × Bool
  font_base_dimensions : σ → ℚ × ℚ
  underline_position : σ → ℚ
  options_size : σ → ℚ
  shape_cached : σ → String → Bool → Bool → List ℕ

/-- `editor::DrawCommand` as consumed by this renderer. -/
structure DrawCommand where
  grid_position : ℕ × ℕ
  cell_width : ℕ
  text : String
  style : Option Style

/-- `editor::WindowRenderInfo`. -/
structure WindowRenderInfo where
  grid_id : ℕ
  grid_position : ℕ × ℕ
  width : ℕ
  height : ℕ
  should_clear : Bool
  draw_commands : List DrawCommand

/-- The per-frame render info built by the editor (`build_render_info`). -/
structure FrameRenderInfo where
  windows : List WindowRenderInfo
  closed_window_ids : List ℕ

/-- `RenderedWindow`: the cached surface and the smoothed position. -/
structure RenderedWindow where
  surface : Surface
  current_position : ℚ × ℚ

/-- `Renderer`: the window cache (a map from grid id), the reusable paint,
the shaper state, the font metrics, and the published window regions.  The
cursor renderer is external and keeps no state here. -/
structure Renderer (σ : Type) where
  rendered_windows : ℕ → Option RenderedWindow
  paint : Paint
  shaper : σ
  font_width : ℚ
  font_height : ℚ
  window_regions : List (ℕ × Rect)

/-- The editor-state snapshot taken at the start of `Renderer::draw`
(cursor state is external and omitted). -/
structure FrameSnapshot where
  render_info : FrameRenderInfo
  default_style : Style
  guifont : Option String

/-- Calls issued on the root render target during one frame. -/
inductive RootEvent where
  | queue_next_frame
  | clear (c : Color)
  | use_logical_coordinates
  | save_layer
  | draw_surface (w h : ℤ) (pos : ℚ × ℚ)
  | restore
  | cursor (dt : ℚ)
deriving DecidableEq

/-- `HashMap::remove` on the window cache. -/
def remove_key (c : ℕ → Option RenderedWindow) (k : ℕ) : ℕ → Option RenderedWindow :=
  fun i => if i = k then none else c i

/-- `HashMap::insert` on the window cache. -/
def insert_key (c : ℕ → Option RenderedWindow) (k : ℕ) (w : RenderedWindow) :
    ℕ → Option RenderedWindow :=
  fun i => if i = k then some w else c i

/-- The eviction loop over `closed_window_ids` in `Renderer::draw`. -/
def remove_closed (c : ℕ → Option RenderedWindow) (ids : List ℕ) :
    ℕ → Option RenderedWindow :=
  ids.foldl remove_key c

/-- Rust `as i32` on a float value: truncation toward zero (ceiling for
negative values, floor otherwise). -/
def f32_as_i32 (q : ℚ) : ℤ := if q < 0 then ⌈q⌉ else ⌊q⌋

/-- `Renderer::compute_text_region`. -/
def compute_text_region (font_width font_height : ℚ) (grid_pos : ℕ × ℕ)
    (cell_width : ℕ) : Rect :=
  let x := (grid_pos.1 : ℚ) * font_width
  let y := (grid_pos.2 : ℚ) * font_height
  let width := (cell_width : ℚ) * font_width
  let height := font_height
  Rect.new x y (x + width) (y + height)

/-- `Renderer::draw_background`: resolve the region and the style, set the
paint color to the resolved background, fill the region.  The mutated paint
is returned (it lives on the `Renderer` and persists). -/
def draw_background (font_width font_height : ℚ) (paint : Paint) (canvas : Canvas)
    (cmd : DrawCommand) (default_style : Style) : Paint × Canvas :=
  let region := compute_text_region font_width font_height cmd.grid_position cmd.cell_width
  let style := cmd.style.getD default_style
  let paint := { paint with color := style.background default_style.colors }
  (paint, canvas.draw_rect region paint)

/-- `Renderer::draw_foreground`: save the canvas, clip to the region, draw
the optional underline/undercurl, the shaped text, the optional
strikethrough, then restore the canvas.  Only the canvas is restored; the
paint mutations persist. -/
def draw_foreground {σ : Type} (m : CachingShaper σ) (sh : σ)
    (font_width font_height : ℚ) (paint : Paint) (canvas : Canvas)
    (cmd : DrawCommand) (default_style : Style) : Paint × Canvas :=
  let x := (cmd.grid_position.1 : ℚ) * font_width
  let y := (cmd.grid_position.2 : ℚ) * font_height
  let width := (cmd.cell_width : ℚ) * font_width
  let style := cmd.style.getD default_style
  let canvas := canvas.save
  let region := compute_text_region font_width font_height cmd.grid_position cmd.cell_width
  let canvas := canvas.clip_rect region
  let pc :=
    if style.underline || style.undercurl then
      let line_position := m.underline_position sh
      let stroke_width := m.options_size sh / 10
      let paint :=
        { paint with
          color := style.special default_style.colors
          stroke_width := stroke_width
          path_effect :=
            if style.undercurl then dash_path_effect [stroke_width * 2, stroke_width * 2] 0
            else none }
      (paint, canvas.draw_line (x, y - line_position + font_height)
        (x + width, y - line_position + font_height) paint)
    else (paint, canvas)
  let paint := { pc.1 with color := style.foreground default_style.colors }
  let canvas := pc.2
  let text := trim_end cmd.text
  let canvas :=
    if text = "" then canvas
    else (m.shape_cached sh text style.bold style.italic).foldl
      (fun c b => c.draw_text_blob b (x, y) paint) canvas
  let pc2 :=
    if style.strikethrough then
      let line_position := region.center_y
      let paint := { paint with color := style.special default_style.colors }
      (paint, canvas.draw_line (x, line_position) (x + width, line_position) paint)
    else (paint, canvas)
  (pc2.1, pc2.2.restore)

/-- `Renderer::build_window_surface`: a fresh surface of the requested
dimensions cleared to the default style's background color; the optional
background color is unwrapped (`None` means the frame panics). -/
def build_window_surface (default_style : Style) (dimensions : ℤ × ℤ) : Option Surface :=
  default_style.colors.background.map fun bg =>
    { width := dimensions.1, height := dimensions.2, pix := fun _ _ => bg }

/-- The position-smoothing step in `Renderer::draw_window`:
`current + (target - current) * 0.4`, with the `0.4` float literal read in
exact rational arithmetic as `2/5`. -/
def smooth_toward (current target : ℚ) : ℚ := current + (target - current) * 0.4

/-- The resolve-or-create step of `Renderer::draw_window` (lines 209-220):
take the cached entry unless `should_clear` is set (removing it from the
map), else build a fresh surface at the target dimensions with
`current_position` set to the target position.  Also returns the cache as
left by the step. -/
def resolve_window (default_style : Style) (cache : ℕ → Option RenderedWindow)
    (wri : WindowRenderInfo) (dims : ℤ × ℤ) (target : ℚ × ℚ) :
    Option (RenderedWindow × (ℕ → Option RenderedWindow)) :=
  let cache' := if wri.should_clear then cache else remove_key cache wri.grid_id
  match (if wri.should_clear then none else cache wri.grid_id) with
  | some w => some (w, cache')
  | none => (build_window_surface default_style dims).map fun s =>
      (⟨s, target⟩, cache')

/-- The resize-rebuild step of `Renderer::draw_window` (lines 222-226): if
the surface dimensions differ from the target, build a fresh surface at the
target dimensions and copy the old content onto it at the origin. -/
def resize_window (default_style : Style) (rw : RenderedWindow) (dims : ℤ × ℤ) :
    Option RenderedWindow :=
  if rw.surface.width ≠ dims.1 ∨ rw.surface.height ≠ dims.2 then
    (build_window_surface default_style dims).map fun ns =>
      { rw with surface := Surface.draw_at_origin rw.surface ns }
  else some rw

/-- The repaint step of `Renderer::draw_window` (lines 235-254): a full
background pass then a full foreground pass over the window's draw
commands, on the window surface's canvas.  Returns the final paint and the
canvas holding the emitted trace. -/
def repaint_window {σ : Type} (m : CachingShaper σ) (sh : σ) (font_width font_height : ℚ)
    (paint : Paint) (default_style : Style) (cmds : List DrawCommand) : Paint × Canvas :=
  let bg := cmds.foldl
    (fun pc cmd => draw_background font_width font_height pc.1 pc.2 cmd default_style)
    (paint, Canvas.empty)
  cmds.foldl
    (fun pc cmd => draw_foreground m sh font_width font_height pc.1 pc.2 cmd default_style)
    bg

/-- `Renderer::draw_window`: resolve or create the cached window, rebuild
on dimension mismatch, smooth the position, repaint (two passes), composite
onto the root target inside a layer save/restore, store the entry back, and
return the `(grid_id, rect)` region.  `none` models the panic inside
`build_window_surface` when the default background color is absent. -/
def draw_window {σ : Type} (A : RasterModel) (m : CachingShaper σ) (st : Renderer σ)
    (wri : WindowRenderInfo) (default_style : Style) :
    Option (Renderer σ × (ℕ × Rect) × List RootEvent) :=
  let target_left := (wri.grid_position.1 : ℚ) * st.font_width
  let target_top := (wri.grid_position.2 : ℚ) * st.font_height
  let image_width := f32_as_i32 ((wri.width : ℚ) * st.font_width)
  let image_height := f32_as_i32 ((wri.height : ℚ) * st.font_height)
  (resolve_window default_style st.rendered_windows wri (image_width, image_height)
      (target_left, target_top)).bind fun rc =>
  (resize_window default_style rc.1 (image_width, image_height)).map fun rw1 =>
  let current_left := smooth_toward rw1.current_position.1 target_left
  let current_top := smooth_toward rw1.current_position.2 target_top
  let rw2 := { rw1 with current_position := (current_left, current_top) }
  let pc := repaint_window m st.shaper st.font_width st.font_height st.paint
    default_style wri.draw_commands
  let surface := { rw2.surface with pix := A.apply rw2.surface.pix pc.2.events }
  let rw3 := { rw2 with surface := surface }
  ({ st with
      rendered_windows := insert_key rc.2 wri.grid_id rw3
      paint := pc.1 },
   (wri.grid_id,
    Rect.new current_left current_top (current_left + (image_width : ℚ))
      (current_top + (image_height : ℚ))),
   [RootEvent.save_layer,
    RootEvent.draw_surface surface.width surface.height (current_left, current_top),
    RootEvent.restore])

/-- The window loop in `Renderer::draw` (lines 301-304): draw each window
in declared order, collecting the regions and the root-canvas events. -/
def draw_windows {σ : Type} (A : RasterModel) (m : CachingShaper σ) (default_style : Style) :
    Renderer σ → List WindowRenderInfo →
    Option (Renderer σ × List (ℕ × Rect) × List RootEvent)
  | st, [] => some (st, [], [])
  | st, w :: ws =>
    (draw_window A m st w default_style).bind fun r =>
      (draw_windows A m default_style r.1 ws).map fun rest =>
        (rest.1, r.2.1 :: rest.2.1, r.2.2 ++ rest.2.2)

/-- `Renderer::update_font`: run the shaper's font update; on change,
refresh `font_width` and `font_height` (the height is ceiled) from the
shaper's base dimensions; return whether the font changed. -/
def Renderer.update_font {σ : Type} (m : CachingShaper σ) (st : Renderer σ)
    (guifont_setting : String) : Renderer σ × Bool :=
  let r := m.update_font st.shaper guifont_setting
  let st := { st with shaper := r.1 }
  if r.2 then
    let d := m.font_base_dimensions r.1
    ({ st with font_width := d.1, font_height := ((⌈d.2⌉ : ℤ) : ℚ) }, r.2)
  else (st, r.2)

/-- `Renderer::draw`: queue the next frame, snapshot editor state, clear
the root target to the default background color (unwrapping it — `none`
models the panic when it is absent), apply any font setting, evict closed
windows, set logical coordinates, draw each window in order replacing the
window-region list, draw the cursor, and return whether the font changed.
The returned trace lists the root-canvas calls in order. -/
def Renderer.draw {σ : Type} (A : RasterModel) (m : CachingShaper σ) (st : Renderer σ)
    (snap : FrameSnapshot) (dt : ℚ) :
    Option (Renderer σ × Bool × List RootEvent) :=
  (snap.default_style.colors.background).bind fun bg =>
  let fc := match snap.guifont with
    | some g => Renderer.update_font m st g
    | none => (st, false)
  let st1 := fc.1
  let font_changed := fc.2
  let st2 := { st1 with
    rendered_windows := remove_closed st1.rendered_windows
      snap.render_info.closed_window_ids }
  (draw_windows A m snap.default_style st2 snap.render_info.windows).map fun r =>
    let st3 := { r.1 with window_regions := r.2.1 }
    (st3, font_changed,
      [RootEvent.queue_next_frame, RootEvent.clear bg, RootEvent.use_logical_coordinates]
        ++ r.2.2 ++ [RootEvent.cursor dt])

/-! ### Concrete instances used by witnesses -/

/-- A concrete rasterizer model: replaying events leaves pixels unchanged. -/
def trivial_raster : RasterModel := ⟨fun p _ => p⟩

/-- A concrete shaper model with unit state. -/
def trivial_shaper : CachingShaper Unit :=
  { update_font := fun _ _ => ((), true)
    font_base_dimensions := fun _ => (1, 1)
    underline_position := fun _ => 0
    options_size := fun _ => 10
    shape_cached := fun _ _ _ _ => [] }

/-- A concrete shaper model whose font update never changes anything. -/
def constant_shaper : CachingShaper Unit :=
  { update_font := fun _ _ => ((), false)
    font_base_dimensions := fun _ => (1, 1)
    underline_position := fun _ => 0
    options_size := fun _ => 10
    shape_cached := fun _ _ _ _ => [] }

/-- A concrete default style with all channels present. -/
def test_style : Style := ⟨⟨some 2, some 3, some 4⟩, false, false, false, false, false⟩

/-- A concrete cached window: a 2×2 surface at position (0, 0). -/
def test_window : RenderedWindow := ⟨⟨2, 2, fun _ _ => 3⟩, (0, 0)⟩

/-- A concrete renderer state caching `test_window` under grid id 1, with
1×1 font metrics. -/
def test_renderer : Renderer Unit :=
  ⟨fun i => if i = 1 then some test_window else none, Paint.initial, (), 1, 1, []⟩

/-- A concrete `WindowRenderInfo` for grid id 1: 2×2 cells at grid
position (2, 0), `should_clear` unset, no draw commands. -/
def test_wri : WindowRenderInfo := ⟨1, (2, 0), 2, 2, false, []⟩

/-! ### C6 -/

/-- C6: `compute_text_region` returns exactly
`rect(gx*fw, gy*fh, gx*fw + w*fw, gy*fh + fh)` for all grid coordinates and
cell widths; it is a pure function of its arguments and the current font
metrics. -/
theorem c6_compute_text_region (fw fh : ℚ) (gx gy cw : ℕ) :
    compute_text_region fw fh (gx, gy) cw =
      Rect.new ((gx : ℚ) * fw) ((gy : ℚ) * fh)
        ((gx : ℚ) * fw + (cw : ℚ) * fw) ((gy : ℚ) * fh + fh) := rfl

/-! ### C2 -/

/-- The smoothing recurrence with a constant target position. -/
def smooth_iter (target s0 : ℚ) : ℕ → ℚ
  | 0 => s0
  | n + 1 => smooth_toward (smooth_iter target s0 n) target

/-! ### C10 -/

/-- C10: every rendering path requires the default style's background color
to be present: a frame whose default style has no background color fails at
the root-target clear, before any window is drawn, and building any window
surface fails as well. -/
theorem c10_missing_background {σ : Type} (A : RasterModel) (m : CachingShaper σ)
    (st : Renderer σ) (snap : FrameSnapshot) (dt : ℚ)
    (h : snap.default_style.colors.background = none) :
    Renderer.draw A m st snap dt = none ∧
    ∀ dims : ℤ × ℤ, build_window_surface snap.default_style dims = none := by
  constructor
  · simp [Renderer.draw, h]
  · intro dims
    simp [build_window_surface, h]

/-- A concrete frame snapshot whose default style lacks a background color. -/
def no_background_snapshot : FrameSnapshot :=
  ⟨⟨[], []⟩, ⟨⟨some 3, none, some 4⟩, false, false, false, false, false⟩, none⟩

/-- Witness for C10 at a concrete input. -/
theorem c10_missing_background_witness :
    Renderer.draw trivial_raster trivial_shaper test_renderer no_background_snapshot 0 = none ∧
    ∀ dims : ℤ × ℤ, build_window_surface no_background_snapshot.default_style dims = none :=
  c10_missing_background trivial_raster trivial_shaper test_renderer no_background_snapshot 0 rfl

/-! ### C3 -/

/-- The smoothing step is the identity when already at the target. -/
theorem smooth_toward_self (t : ℚ) : smooth_toward t t = t := by
  rw [smooth_toward]; ring

/-- C3: when `should_clear` is set, or the grid id has no cached entry, the
resolve step allocates a fresh surface sized to the target pixel dimensions
(`f32_as_i32 (width_cells * font_width)`, `f32_as_i32 (height_cells *
font_height)`), every pixel cleared to the default background color, with
`current_position` equal to the target position; and after the whole
`draw_window` the stored smoothed position equals the target position,
regardless of any prior cached state for that grid id. -/
theorem c3_fresh_window {σ : Type} (A : RasterModel) (m : CachingShaper σ)
    (st : Renderer σ) (wri : WindowRenderInfo) (ds : Style) (bg : Color)
    (hbg : ds.colors.background = some bg)
    (hfresh : wri.should_clear = true ∨ st.rendered_windows wri.grid_id = none) :
    (∃ cache',
      resolve_window ds st.rendered_windows wri
          (f32_as_i32 ((wri.width : ℚ) * st.font_width),
           f32_as_i32 ((wri.height : ℚ) * st.font_height))
          ((wri.grid_position.1 : ℚ) * st.font_width,
           (wri.grid_position.2 : ℚ) * st.font_height) =
        some (⟨⟨f32_as_i32 ((wri.width : ℚ) * st.font_width),
                f32_as_i32 ((wri.height : ℚ) * st.font_height),
                fun _ _ => bg⟩,
               ((wri.grid_position.1 : ℚ) * st.font_width,
                (wri.grid_position.2 : ℚ) * st.font_height)⟩, cache')) ∧
    ((draw_window A m st wri ds).bind fun r =>
        (r.1.rendered_windows wri.grid_id).map RenderedWindow.current_position) =
      some ((wri.grid_position.1 : ℚ) * st.font_width,
            (wri.grid_position.2 : ℚ) * st.font_height) := by
  cases hsc : wri.should_clear with
  | true =>
    refine ⟨⟨st.rendered_windows, ?_⟩, ?_⟩ <;>
      simp [draw_window, resolve_window, resize_window, hsc, build_window_surface, hbg,
        insert_key, smooth_toward_self]
  | false =>
    have hmiss : st.rendered_windows wri.grid_id = none := by
      rcases hfresh with h | h
      · rw [hsc] at h; exact absurd h (by simp)
      · exact h
    refine ⟨⟨remove_key st.rendered_windows wri.grid_id, ?_⟩, ?_⟩ <;>
      simp [draw_window, resolve_window, resize_window, hsc, hmiss, build_window_surface,
        hbg, insert_key, smooth_toward_self]

/-- A concrete `WindowRenderInfo` with `should_clear` set. -/
def test_wri_clear : WindowRenderInfo := ⟨1, (2, 0), 2, 2, true, []⟩

/-- Witness for C3 at a concrete input (`should_clear` set while grid id 1
is cached). -/
theorem c3_fresh_window_witness :
    (∃ cache',
      resolve_window test_style test_renderer.rendered_windows test_wri_clear
          (f32_as_i32 ((test_wri_clear.width : ℚ) * test_renderer.font_width),
           f32_as_i32 ((test_wri_clear.height : ℚ) * test_renderer.font_height))
          ((test_wri_clear.grid_position.1 : ℚ) * test_renderer.font_width,
           (test_wri_clear.grid_position.2 : ℚ) * test_renderer.font_height) =
        some (⟨⟨f32_as_i32 ((test_wri_clear.width : ℚ) * test_renderer.font_width),
                f32_as_i32 ((test_wri_clear.height : ℚ) * test_renderer.font_height),
                fun _ _ => 3⟩,
               ((test_wri_clear.grid_position.1 : ℚ) * test_renderer.font_width,
                (test_wri_clear.grid_position.2 : ℚ) * test_renderer.font_height)⟩, cache')) ∧
    ((draw_window trivial_raster trivial_shaper test_renderer test_wri_clear test_style).bind
        fun r => (r.1.rendered_windows test_wri_clear.grid_id).map RenderedWindow.current_position) =
      some ((test_wri_clear.grid_position.1 : ℚ) * test_renderer.font_width,
            (test_wri_clear.grid_position.2 : ℚ) * test_renderer.font_height) :=
  c3_fresh_window trivial_raster trivial_shaper test_renderer test_wri_clear test_style 3
    rfl (Or.inl rfl)

/-! ### C4 -/

/-- C4: when a cached window's surface dimensions differ from the computed
target dimensions (and `should_clear` is unset), the rebuild step replaces
the surface with one of the target size whose content is the old surface
copied at origin (0, 0) over a default-background canvas — the old pixel is
kept wherever the old surface covers, the background color elsewhere, never
stretched or cropped — the rebuild leaves `current_position` untouched, and
the entry is stored back under the same grid id with its smoothing state
advanced from the original position. -/
theorem c4_resize_rebuild {σ : Type} (A : RasterModel) (m : CachingShaper σ)
    (st : Renderer σ) (wri : WindowRenderInfo) (ds : Style) (bg : Color)
    (w : RenderedWindow)
    (hbg : ds.colors.background = some bg)
    (hsc : wri.should_clear = false)
    (hc : st.rendered_windows wri.grid_id = some w)
    (hdim : w.surface.width ≠ f32_as_i32 ((wri.width : ℚ) * st.font_width) ∨
            w.surface.height ≠ f32_as_i32 ((wri.height : ℚ) * st.font_height)) :
    (resize_window ds w
        (f32_as_i32 ((wri.width : ℚ) * st.font_width),
         f32_as_i32 ((wri.height : ℚ) * st.font_height)) =
      some { w with surface := (Surface.draw_at_origin w.surface
              ⟨f32_as_i32 ((wri.width : ℚ) * st.font_width),
               f32_as_i32 ((wri.height : ℚ) * st.font_height),
               fun _ _ => bg⟩) }) ∧
    ((Surface.draw_at_origin w.surface
        ⟨f32_as_i32 ((wri.width : ℚ) * st.font_width),
         f32_as_i32 ((wri.height : ℚ) * st.font_height),
         fun _ _ => bg⟩).width = f32_as_i32 ((wri.width : ℚ) * st.font_width)) ∧
    ((Surface.draw_at_origin w.surface
        ⟨f32_as_i32 ((wri.width : ℚ) * st.font_width),
         f32_as_i32 ((wri.height : ℚ) * st.font_height),
         fun _ _ => bg⟩).height = f32_as_i32 ((wri.height : ℚ) * st.font_height)) ∧
    (∀ x y : ℤ,
      (Surface.draw_at_origin w.surface
        ⟨f32_as_i32 ((wri.width : ℚ) * st.font_width),
         f32_as_i32 ((wri.height : ℚ) * st.font_height),
         fun _ _ => bg⟩).pix x y =
        if 0 ≤ x ∧ x < w.surface.width ∧ 0 ≤ y ∧ y < w.surface.height
        then w.surface.pix x y else bg) ∧
    ((draw_window A m st wri ds).bind fun r =>
        (r.1.rendered_windows wri.grid_id).map RenderedWindow.current_position) =
      some (smooth_toward w.current_position.1 ((wri.grid_position.1 : ℚ) * st.font_width),
            smooth_toward w.current_position.2 ((wri.grid_position.2 : ℚ) * st.font_height)) := by
  have hresize : resize_window ds w
      (f32_as_i32 ((wri.width : ℚ) * st.font_width),
       f32_as_i32 ((wri.height : ℚ) * st.font_height)) =
      some { w with surface := (Surface.draw_at_origin w.surface
              ⟨f32_as_i32 ((wri.width : ℚ) * st.font_width),
               f32_as_i32 ((wri.height : ℚ) * st.font_height),
               fun _ _ => bg⟩) } := by
    rw [resize_window, if_pos hdim, build_window_surface, hbg]
    rfl
  refine ⟨hresize, rfl, rfl, fun x y => rfl, ?_⟩
  simp [draw_window, resolve_window, hsc, hc, hresize, insert_key]

/-- A concrete `WindowRenderInfo` for grid id 1 whose cell width grew to 3
(the cached surface is 2×2). -/
def test_wri_resize : WindowRenderInfo := ⟨1, (2, 0), 3, 2, false, []⟩

/-- Witness for C4 at a concrete input: the cached 2×2 surface is rebuilt
at 3×2. -/
theorem c4_resize_rebuild_witness :
    (resize_window test_style test_window
        (f32_as_i32 ((test_wri_resize.width : ℚ) * test_renderer.font_width),
         f32_as_i32 ((test_wri_resize.height : ℚ) * test_renderer.font_height)) =
      some { test_window with surface := (Surface.draw_at_origin test_window.surface
              ⟨f32_as_i32 ((test_wri_resize.width : ℚ) * test_renderer.font_width),
               f32_as_i32 ((test_wri_resize.height : ℚ) * test_renderer.font_height),
               fun _ _ => 3⟩) }) ∧
    ((Surface.draw_at_origin test_window.surface
        ⟨f32_as_i32 ((test_wri_resize.width : ℚ) * test_renderer.font_width),
         f32_as_i32 ((test_wri_resize.height : ℚ) * test_renderer.font_height),
         fun _ _ => 3⟩).width = f32_as_i32 ((test_wri_resize.width : ℚ) * test_renderer.font_width)) ∧
    ((Surface.draw_at_origin test_window.surface
        ⟨f32_as_i32 ((test_wri_resize.width : ℚ) * test_renderer.font_width),
         f32_as_i32 ((test_wri_resize.height : ℚ) * test_renderer.font_height),
         fun _ _ => 3⟩).height = f32_as_i32 ((test_wri_resize.height : ℚ) * test_renderer.font_height)) ∧
    (∀ x y : ℤ,
      (Surface.draw_at_origin test_window.surface
        ⟨f32_as_i32 ((test_wri_resize.width : ℚ) * test_renderer.font_width),
         f32_as_i32 ((test_wri_resize.height : ℚ) * test_renderer.font_height),
         fun _ _ => 3⟩).pix x y =
        if 0 ≤ x ∧ x < test_window.surface.width ∧ 0 ≤ y ∧ y < test_window.surface.height
        then test_window.surface.pix x y else 3) ∧
    ((draw_window trivial_raster trivial_shaper test_renderer test_wri_resize test_style).bind
        fun r => (r.1.rendered_windows test_wri_resize.grid_id).map RenderedWindow.current_position) =
      some (smooth_toward test_window.current_position.1
              ((test_wri_resize.grid_position.1 : ℚ) * test_renderer.font_width),
            smooth_toward test_window.current_position.2
              ((test_wri_resize.grid_position.2 : ℚ) * test_renderer.font_height)) :=
  c4_resize_rebuild trivial_raster trivial_shaper test_renderer test_wri_resize test_style 3
    test_window rfl rfl (by simp [test_renderer, test_wri_resize])
    (Or.inl (by rw [f32_as_i32]; norm_num [test_window, test_wri_resize, test_renderer]))

/-! ### Structural lemmas about `draw_window` and the frame loop -/

/-- The smoothed position `draw_window` computes for a window this frame:
the cached position (or the target, for a fresh window) advanced one
smoothing step toward the target. -/
def frame_smoothed_position {σ : Type} (st : Renderer σ) (wri : WindowRenderInfo) : ℚ × ℚ :=
  let tl := (wri.grid_position.1 : ℚ) * st.font_width
  let tt := (wri.grid_position.2 : ℚ) * st.font_height
  let pos0 := match (if wri.should_clear then none else st.rendered_windows wri.grid_id) with
    | some w => w.current_position
    | none => (tl, tt)
  (smooth_toward pos0.1 tl, smooth_toward pos0.2 tt)

/-- The window-region entry the spec says a window contributes to the
frame's list: `(grid_id, rect(smoothed_position, pixel_size))`. -/
def spec_window_entry {σ : Type} (st : Renderer σ) (wri : WindowRenderInfo) : ℕ × Rect :=
  let p := frame_smoothed_position st wri
  (wri.grid_id,
   Rect.new p.1 p.2
     (p.1 + (f32_as_i32 ((wri.width : ℚ) * st.font_width) : ℚ))
     (p.2 + (f32_as_i32 ((wri.height : ℚ) * st.font_height) : ℚ)))

theorem resolve_window_spec (ds : Style) (c : ℕ → Option RenderedWindow)
    (wri : WindowRenderInfo) (dims : ℤ × ℤ) (tgt : ℚ × ℚ)
    (rc : RenderedWindow × (ℕ → Option RenderedWindow))
    (h : resolve_window ds c wri dims tgt = some rc) :
    (∀ k, k ≠ wri.grid_id → rc.2 k = c k) ∧
    rc.1.current_position =
      (match (if wri.should_clear then none else c wri.grid_id) with
        | some w => w.current_position
        | none => tgt) := by
  rw [resolve_window] at h
  cases hsc : wri.should_clear with
  | true =>
    rw [hsc] at h
    simp only [if_true, Bool.true_eq_false] at h
    rcases hb : build_window_surface ds dims with _ | s <;> rw [hb] at h <;> simp at h
    rw [← h]
    simp [hsc]
  | false =>
    rw [hsc] at h
    simp only [if_false, Bool.false_eq_true] at h
    cases hl : c wri.grid_id with
    | some w =>
      rw [hl] at h
      simp at h
      rw [← h]
      refine ⟨fun k hk => ?_, by simp [hsc, hl]⟩
      simp [remove_key, hk]
    | none =>
      rw [hl] at h
      simp only [hl] at h
      rcases hb : build_window_surface ds dims with _ | s <;> rw [hb] at h <;> simp at h
      rw [← h]
      refine ⟨fun k hk => ?_, by simp [hsc, hl]⟩
      simp [remove_key, hk]

theorem resolve_window_some (ds : Style) (c : ℕ → Option RenderedWindow)
    (wri : WindowRenderInfo) (dims : ℤ × ℤ) (tgt : ℚ × ℚ) (bg : Color)
    (hbg : ds.colors.background = some bg) :
    ∃ rc, resolve_window ds c wri dims tgt = some rc := by
  rw [resolve_window]
  cases hsc : wri.should_clear <;> simp [hsc, build_window_surface, hbg]
  cases hl : c wri.grid_id <;> simp [hl, build_window_surface, hbg]

theorem resize_window_position (ds : Style) (rw0 : RenderedWindow) (dims : ℤ × ℤ)
    (rw1 : RenderedWindow) (h : resize_window ds rw0 dims = some rw1) :
    rw1.current_position = rw0.current_position := by
  rw [resize_window] at h
  split at h
  · rcases hb : build_window_surface ds dims with _ | s <;> rw [hb] at h <;> simp at h
    rw [← h]
  · simp at h
    rw [← h]

theorem resize_window_some (ds : Style) (rw0 : RenderedWindow) (dims : ℤ × ℤ) (bg : Color)
    (hbg : ds.colors.background = some bg) :
    ∃ rw1, resize_window ds rw0 dims = some rw1 := by
  rw [resize_window]
  split <;> simp [build_window_surface, hbg]

theorem draw_window_state {σ : Type} (A : RasterModel) (m : CachingShaper σ)
    (st : Renderer σ) (wri : WindowRenderInfo) (ds : Style)
    (r : Renderer σ × (ℕ × Rect) × List RootEvent)
    (h : draw_window A m st wri ds = some r) :
    ∃ (w : RenderedWindow) (cache' : ℕ → Option RenderedWindow) (p : Paint),
      (∀ k, k ≠ wri.grid_id → cache' k = st.rendered_windows k) ∧
      r.1 = { st with rendered_windows := insert_key cache' wri.grid_id w, paint := p } ∧
      w.current_position = frame_smoothed_position st wri ∧
      r.2.1 = spec_window_entry st wri := by
  simp only [draw_window] at h
  rcases hres : resolve_window ds st.rendered_windows wri
      (f32_as_i32 ((wri.width : ℚ) * st.font_width),
       f32_as_i32 ((wri.height : ℚ) * st.font_height))
      ((wri.grid_position.1 : ℚ) * st.font_width,
       (wri.grid_position.2 : ℚ) * st.font_height) with _ | rc
  · rw [hres] at h; simp at h
  · rw [hres] at h
    simp only [Option.some_bind] at h
    rcases hrez : resize_window ds rc.1
        (f32_as_i32 ((wri.width : ℚ) * st.font_width),
         f32_as_i32 ((wri.height : ℚ) * st.font_height)) with _ | rw1
    · rw [hrez] at h; simp at h
    · rw [hrez] at h
      simp only [Option.map_some', Option.some.injEq] at h
      obtain ⟨hcache, hpos⟩ := resolve_window_spec ds st.rendered_windows wri _ _ rc hres
      have hpos1 := resize_window_position ds rc.1 _ rw1 hrez
      subst h
      refine ⟨_, rc.2, _, hcache, rfl, ?_, ?_⟩
      · show (smooth_toward rw1.current_position.1 _, smooth_toward rw1.current_position.2 _) = _
        rw [hpos1, hpos, frame_smoothed_position]
      · show (wri.grid_id, Rect.new (smooth_toward rw1.current_position.1 _)
          (smooth_toward rw1.current_position.2 _) _ _) = _
        rw [hpos1, hpos, spec_window_entry, frame_smoothed_position]

theorem draw_window_some {σ : Type} (A : RasterModel) (m : CachingShaper σ)
    (st : Renderer σ) (wri : WindowRenderInfo) (ds : Style) (bg : Color)
    (hbg : ds.colors.background = some bg) :
    ∃ r, draw_window A m st wri ds = some r := by
  obtain ⟨rc, hres⟩ := resolve_window_some ds st.rendered_windows wri
    (f32_as_i32 ((wri.width : ℚ) * st.font_width),
     f32_as_i32 ((wri.height : ℚ) * st.font_height))
    ((wri.grid_position.1 : ℚ) * st.font_width,
     (wri.grid_position.2 : ℚ) * st.font_height) bg hbg
  obtain ⟨rw1, hrez⟩ := resize_window_some ds rc.1
    (f32_as_i32 ((wri.width : ℚ) * st.font_width),
     f32_as_i32 ((wri.height : ℚ) * st.font_height)) bg hbg
  rw [← Option.isSome_iff_exists]
  simp only [draw_window]
  rw [hres]
  simp only [Option.some_bind]
  rw [hrez]
  simp only [Option.map_some', Option.isSome_some]

theorem draw_windows_some {σ : Type} (A : RasterModel) (m : CachingShaper σ)
    (ds : Style) (bg : Color) (hbg : ds.colors.background = some bg) :
    ∀ (ws : List WindowRenderInfo) (st : Renderer σ),
      ∃ r, draw_windows A m ds st ws = some r := by
  intro ws
  induction ws with
  | nil => exact fun st => ⟨_, rfl⟩
  | cons w ws ih =>
    intro st
    obtain ⟨r1, h1⟩ := draw_window_some A m st w ds bg hbg
    obtain ⟨r2, h2⟩ := ih r1.1
    rw [← Option.isSome_iff_exists]
    simp only [draw_windows]
    rw [h1]
    simp only [Option.some_bind]
    rw [h2]
    simp only [Option.map_some', Option.isSome_some]

theorem draw_windows_cache {σ : Type} (A : RasterModel) (m : CachingShaper σ) (ds : Style) :
    ∀ (ws : List WindowRenderInfo) (st : Renderer σ)
      (r : Renderer σ × List (ℕ × Rect) × List RootEvent),
      draw_windows A m ds st ws = some r →
      ∀ k, k ∉ ws.map WindowRenderInfo.grid_id →
        r.1.rendered_windows k = st.rendered_windows k := by
  intro ws
  induction ws with
  | nil =>
    intro st r h k _
    simp only [draw_windows, Option.some.injEq] at h
    rw [← h]
  | cons w ws ih =>
    intro st r h k hk
    simp only [draw_windows] at h
    rcases h1 : draw_window A m st w ds with _ | r1
    · rw [h1] at h; simp at h
    · rw [h1] at h
      simp only [Option.some_bind] at h
      rcases h2 : draw_windows A m ds r1.1 ws with _ | r2
      · rw [h2] at h; simp at h
      · rw [h2] at h
        simp only [Option.map_some', Option.some.injEq] at h
        subst h
        simp only [List.map_cons, List.mem_cons, not_or] at hk
        obtain ⟨w', cache', p, hc, hst, _, _⟩ := draw_window_state A m st w ds r1 h1
        show r2.1.rendered_windows k = st.rendered_windows k
        rw [ih r1.1 r2 h2 k hk.2, hst]
        show insert_key cache' w.grid_id w' k = st.rendered_windows k
        rw [insert_key, if_neg hk.1]
        exact hc k hk.1

theorem draw_windows_fonts {σ : Type} (A : RasterModel) (m : CachingShaper σ) (ds : Style) :
    ∀ (ws : List WindowRenderInfo) (st : Renderer σ)
      (r : Renderer σ × List (ℕ × Rect) × List RootEvent),
      draw_windows A m ds st ws = some r →
      r.1.font_width = st.font_width ∧ r.1.font_height = st.font_height ∧
        r.1.shaper = st.shaper := by
  intro ws
  induction ws with
  | nil =>
    intro st r h
    simp only [draw_windows, Option.some.injEq] at h
    rw [← h]
    exact ⟨rfl, rfl, rfl⟩
  | cons w ws ih =>
    intro st r h
    simp only [draw_windows] at h
    rcases h1 : draw_window A m st w ds with _ | r1
    · rw [h1] at h; simp at h
    · rw [h1] at h
      simp only [Option.some_bind] at h
      rcases h2 : draw_windows A m ds r1.1 ws with _ | r2
      · rw [h2] at h; simp at h
      · rw [h2] at h
        simp only [Option.map_some', Option.some.injEq] at h
        subst h
        obtain ⟨w', cache', p, _, hst, _, _⟩ := draw_window_state A m st w ds r1 h1
        obtain ⟨hw, hh, hs⟩ := ih r1.1 r2 h2
        refine ⟨?_, ?_, ?_⟩ <;> show _ = _
        · rw [show r2.1.font_width = r1.1.font_width from hw, hst]
        · rw [show r2.1.font_height = r1.1.font_height from hh, hst]
        · rw [show r2.1.shaper = r1.1.shaper from hs, hst]

theorem update_font_cache {σ : Type} (m : CachingShaper σ) (st : Renderer σ) (g : String) :
    (Renderer.update_font m st g).1.rendered_windows = st.rendered_windows := by
  simp only [Renderer.update_font]
  split <;> rfl

theorem remove_closed_cons (c : ℕ → Option RenderedWindow) (a : ℕ) (l : List ℕ) :
    remove_closed c (a :: l) = remove_closed (remove_key c a) l := by
  rw [remove_closed, remove_closed, List.foldl_cons]

theorem remove_closed_not_mem :
    ∀ (ids : List ℕ) (c : ℕ → Option RenderedWindow) (k : ℕ),
      k ∉ ids → remove_closed c ids k = c k := by
  intro ids
  induction ids with
  | nil => intro c k _; rfl
  | cons a l ih =>
    intro c k hk
    simp only [List.mem_cons, not_or] at hk
    rw [remove_closed_cons, ih _ k hk.2]
    simp [remove_key, hk.1]

theorem remove_closed_mem :
    ∀ (ids : List ℕ) (c : ℕ → Option RenderedWindow) (k : ℕ),
      k ∈ ids → remove_closed c ids k = none := by
  intro ids
  induction ids with
  | nil => intro c k hk; simp at hk
  | cons a l ih =>
    intro c k hk
    rw [remove_closed_cons]
    by_cases hkl : k ∈ l
    · exact ih _ k hkl
    · have hka : k = a := by
        rcases List.mem_cons.mp hk with h | h
        · exact h
        · exact absurd h hkl
      rw [remove_closed_not_mem l _ k hkl]
      simp [remove_key, hka]

theorem remove_closed_eq_or (ids : List ℕ) (c : ℕ → Option RenderedWindow) (k : ℕ) :
    remove_closed c ids k = none ∨ remove_closed c ids k = c k := by
  by_cases h : k ∈ ids
  · exact Or.inl (remove_closed_mem ids c k h)
  · exact Or.inr (remove_closed_not_mem ids c k h)

theorem draw_unfold {σ : Type} (A : RasterModel) (m : CachingShaper σ) (st : Renderer σ)
    (snap : FrameSnapshot) (dt : ℚ) (bg : Color)
    (hbg : snap.default_style.colors.background = some bg) (st1 : Renderer σ × Bool)
    (hst1 : (match snap.guifont with
      | some g => Renderer.update_font m st g
      | none => (st, false)) = st1)
    (r : Renderer σ × List (ℕ × Rect) × List RootEvent)
    (hr : draw_windows A m snap.default_style
        { st1.1 with rendered_windows := (remove_closed st1.1.rendered_windows
            snap.render_info.closed_window_ids) }
        snap.render_info.windows = some r) :
    Renderer.draw A m st snap dt =
      some ({ r.1 with window_regions := r.2.1 }, st1.2,
        [RootEvent.queue_next_frame, RootEvent.clear bg, RootEvent.use_logical_coordinates]
          ++ r.2.2 ++ [RootEvent.cursor dt]) := by
  simp only [Renderer.draw, hbg, Option.some_bind, hst1]
  rw [hr]
  simp only [Option.map_some']

/-! ### C2 (settled after the structural lemmas) -/

/-- C2: whenever a window is drawn with `should_clear = false` and an
existing cached entry — whether or not the surface is rebuilt for new
dimensions; the rebuild never touches the position — the stored smoothed
position is updated exactly once per axis by
`smoothed + (target - smoothed) * 0.4`, with no dependence on elapsed time;
and iterating this step with a constant target contracts the residual
distance by the exact factor `3/5` every frame. -/
theorem c2_smoothing {σ : Type} (A : RasterModel) (m : CachingShaper σ)
    (st : Renderer σ) (wri : WindowRenderInfo) (ds : Style) (bg : Color)
    (w : RenderedWindow)
    (hbg : ds.colors.background = some bg)
    (hsc : wri.should_clear = false)
    (hc : st.rendered_windows wri.grid_id = some w) :
    ((draw_window A m st wri ds).bind fun r =>
        (r.1.rendered_windows wri.grid_id).map RenderedWindow.current_position) =
      some (smooth_toward w.current_position.1 ((wri.grid_position.1 : ℚ) * st.font_width),
            smooth_toward w.current_position.2 ((wri.grid_position.2 : ℚ) * st.font_height)) ∧
    ∀ target s0 : ℚ, ∀ n : ℕ,
      |smooth_iter target s0 (n + 1) - target| = 3 / 5 * |smooth_iter target s0 n - target| := by
  constructor
  · obtain ⟨r, hr⟩ := draw_window_some A m st wri ds bg hbg
    obtain ⟨w', cache', p, hcache, hst, hpos, hentry⟩ := draw_window_state A m st wri ds r hr
    rw [hr]
    simp only [Option.some_bind]
    rw [hst]
    show (insert_key cache' wri.grid_id w' wri.grid_id).map RenderedWindow.current_position = _
    simp [insert_key, hpos, frame_smoothed_position, hsc, hc]
  · intro target s0 n
    have h1 : smooth_iter target s0 (n + 1) - target =
        3 / 5 * (smooth_iter target s0 n - target) := by
      show smooth_toward (smooth_iter target s0 n) target - target = _
      rw [smooth_toward]
      ring
    rw [h1, abs_mul]
    norm_num

/-- Witness for C2 at a concrete input: grid id 1 is cached at position
(0, 0), the window moves to grid position (2, 0) with 1×1 font metrics, so
the stored position becomes `(0 + (2-0)*0.4, 0)`. -/
theorem c2_smoothing_witness :
    (((draw_window trivial_raster trivial_shaper test_renderer test_wri test_style).bind
        fun r => (r.1.rendered_windows test_wri.grid_id).map RenderedWindow.current_position) =
      some (smooth_toward test_window.current_position.1
              ((test_wri.grid_position.1 : ℚ) * test_renderer.font_width),
            smooth_toward test_window.current_position.2
              ((test_wri.grid_position.2 : ℚ) * test_renderer.font_height)) ∧
    ∀ target s0 : ℚ, ∀ n : ℕ,
      |smooth_iter target s0 (n + 1) - target| = 3 / 5 * |smooth_iter target s0 n - target|) :=
  c2_smoothing trivial_raster trivial_shaper test_renderer test_wri test_style 3 test_window
    rfl rfl (by simp [test_renderer, test_wri])

/-! ### C5 -/

/-- C5: every grid id in `closed_window_ids` is evicted from the cache
before any window is drawn (the eviction fold erases every listed id, and
`Renderer.draw` applies it to the cache handed to the window loop); after
the frame, such a grid id is absent from the cache unless this frame's
windows list re-declares it; and an absent grid id stays absent across any
frame that does not re-declare it. -/
theorem c5_closed_window_eviction {σ : Type} (A : RasterModel) (m : CachingShaper σ)
    (st : Renderer σ) (snap : FrameSnapshot) (dt : ℚ) (bg : Color)
    (hbg : snap.default_style.colors.background = some bg) :
    (∀ (c : ℕ → Option RenderedWindow) (k : ℕ), k ∈ snap.render_info.closed_window_ids →
      remove_closed c snap.render_info.closed_window_ids k = none) ∧
    ∃ st' fc tr, Renderer.draw A m st snap dt = some (st', fc, tr) ∧
      (∀ gid, gid ∈ snap.render_info.closed_window_ids →
        gid ∉ snap.render_info.windows.map WindowRenderInfo.grid_id →
        st'.rendered_windows gid = none) ∧
      (∀ gid, st.rendered_windows gid = none →
        gid ∉ snap.render_info.windows.map WindowRenderInfo.grid_id →
        st'.rendered_windows gid = none) := by
  have hst1ex : ∃ st1 : Renderer σ × Bool,
      (match snap.guifont with
        | some g => Renderer.update_font m st g
        | none => (st, false)) = st1 ∧
      st1.1.rendered_windows = st.rendered_windows := by
    cases hg : snap.guifont with
    | none => exact ⟨(st, false), rfl, rfl⟩
    | some g => exact ⟨Renderer.update_font m st g, rfl, update_font_cache m st g⟩
  obtain ⟨st1, hst1, hcache1⟩ := hst1ex
  obtain ⟨r, hr⟩ := draw_windows_some A m snap.default_style bg hbg snap.render_info.windows
    { st1.1 with rendered_windows := (remove_closed st1.1.rendered_windows
        snap.render_info.closed_window_ids) }
  have hdraw := draw_unfold A m st snap dt bg hbg st1 hst1 r hr
  refine ⟨fun c k hk => remove_closed_mem _ c k hk, _, _, _, hdraw, ?_, ?_⟩
  · intro gid hgid hnot
    have hc := draw_windows_cache A m snap.default_style snap.render_info.windows _ r hr gid hnot
    show r.1.rendered_windows gid = none
    rw [hc]
    exact remove_closed_mem _ _ _ hgid
  · intro gid hnone hnot
    have hc := draw_windows_cache A m snap.default_style snap.render_info.windows _ r hr gid hnot
    show r.1.rendered_windows gid = none
    rw [hc]
    rcases remove_closed_eq_or snap.render_info.closed_window_ids
        st1.1.rendered_windows gid with h | h
    · exact h
    · show remove_closed st1.1.rendered_windows _ gid = none
      rw [h, hcache1]
      exact hnone

/-- A concrete frame snapshot closing grid id 1 and drawing no windows. -/
def closing_snapshot : FrameSnapshot := ⟨⟨[], [1]⟩, test_style, none⟩

/-- Witness for C5 at a concrete input: grid id 1 is cached, the frame
closes it and draws nothing. -/
theorem c5_closed_window_eviction_witness :
    (∀ (c : ℕ → Option RenderedWindow) (k : ℕ),
      k ∈ closing_snapshot.render_info.closed_window_ids →
      remove_closed c closing_snapshot.render_info.closed_window_ids k = none) ∧
    ∃ st' fc tr,
      Renderer.draw trivial_raster trivial_shaper test_renderer closing_snapshot 0 =
        some (st', fc, tr) ∧
      (∀ gid, gid ∈ closing_snapshot.render_info.closed_window_ids →
        gid ∉ closing_snapshot.render_info.windows.map WindowRenderInfo.grid_id →
        st'.rendered_windows gid = none) ∧
      (∀ gid, test_renderer.rendered_windows gid = none →
        gid ∉ closing_snapshot.render_info.windows.map WindowRenderInfo.grid_id →
        st'.rendered_windows gid = none) :=
  c5_closed_window_eviction trivial_raster trivial_shaper test_renderer closing_snapshot 0 3 rfl

/-! ### C9 -/

theorem update_font_spec {σ : Type} (m : CachingShaper σ) (st : Renderer σ) (g : String) :
    (Renderer.update_font m st g).2 = (m.update_font st.shaper g).2 ∧
    ((m.update_font st.shaper g).2 = true →
      (Renderer.update_font m st g).1.font_width =
        (m.font_base_dimensions (m.update_font st.shaper g).1).1 ∧
      (Renderer.update_font m st g).1.font_height =
        ((⌈(m.font_base_dimensions (m.update_font st.shaper g).1).2⌉ : ℤ) : ℚ)) ∧
    ((m.update_font st.shaper g).2 = false →
      (Renderer.update_font m st g).1.font_width = st.font_width ∧
      (Renderer.update_font m st g).1.font_height = st.font_height) := by
  simp only [Renderer.update_font]
  by_cases hb : (m.update_font st.shaper g).2 = true
  · simp [hb]
  · simp only [Bool.not_eq_true] at hb
    simp [hb]

/-- C9: the frame returns `true` exactly when the snapshot carried a font
setting whose application reported a change; on `true` the font metrics are
refreshed from the shaper's base dimensions (width as is, height ceiled);
with no setting — or a setting that reports no change — it returns `false`
and the metrics are untouched. -/
theorem c9_font_changed {σ : Type} (A : RasterModel) (m : CachingShaper σ)
    (st : Renderer σ) (snap : FrameSnapshot) (dt : ℚ) (bg : Color)
    (hbg : snap.default_style.colors.background = some bg) :
    ∃ st' fc tr, Renderer.draw A m st snap dt = some (st', fc, tr) ∧
      (fc = true ↔ ∃ g, snap.guifont = some g ∧ (m.update_font st.shaper g).2 = true) ∧
      (snap.guifont = none →
        fc = false ∧ st'.font_width = st.font_width ∧ st'.font_height = st.font_height) ∧
      (∀ g, snap.guifont = some g → (m.update_font st.shaper g).2 = true →
        st'.font_width = (m.font_base_dimensions (m.update_font st.shaper g).1).1 ∧
        st'.font_height = ((⌈(m.font_base_dimensions (m.update_font st.shaper g).1).2⌉ : ℤ) : ℚ)) ∧
      (∀ g, snap.guifont = some g → (m.update_font st.shaper g).2 = false →
        fc = false ∧ st'.font_width = st.font_width ∧ st'.font_height = st.font_height) := by
  cases hg : snap.guifont with
  | none =>
    obtain ⟨r, hr⟩ := draw_windows_some A m snap.default_style bg hbg snap.render_info.windows
      { st with rendered_windows := (remove_closed st.rendered_windows
          snap.render_info.closed_window_ids) }
    have hdraw := draw_unfold A m st snap dt bg hbg (st, false) (by rw [hg]) r hr
    obtain ⟨hfw, hfh, _⟩ := draw_windows_fonts A m snap.default_style
      snap.render_info.windows _ r hr
    refine ⟨_, _, _, hdraw, ?_, ?_, ?_, ?_⟩
    · simp [hg]
    · intro _
      refine ⟨rfl, ?_, ?_⟩
      · show r.1.font_width = st.font_width
        rw [hfw]
      · show r.1.font_height = st.font_height
        rw [hfh]
    · intro g hgg
      exact absurd hgg (by simp)
    · intro g hgg
      exact absurd hgg (by simp)
  | some g =>
    obtain ⟨r, hr⟩ := draw_windows_some A m snap.default_style bg hbg snap.render_info.windows
      { (Renderer.update_font m st g).1 with
        rendered_windows := (remove_closed (Renderer.update_font m st g).1.rendered_windows
          snap.render_info.closed_window_ids) }
    have hdraw := draw_unfold A m st snap dt bg hbg (Renderer.update_font m st g)
      (by rw [hg]) r hr
    obtain ⟨hfw, hfh, _⟩ := draw_windows_fonts A m snap.default_style
      snap.render_info.windows _ r hr
    obtain ⟨hret, htrue, hfalse⟩ := update_font_spec m st g
    refine ⟨_, _, _, hdraw, ?_, ?_, ?_, ?_⟩
    · rw [hret]
      constructor
      · intro h
        exact ⟨g, rfl, h⟩
      · rintro ⟨g', hg', h⟩
        cases hg'
        exact h
    · intro h
      exact absurd h (by simp)
    · intro g' hg' hch
      cases hg'
      obtain ⟨hw, hh⟩ := htrue hch
      constructor
      · show r.1.font_width = _
        rw [hfw]
        exact hw
      · show r.1.font_height = _
        rw [hfh]
        exact hh
    · intro g' hg' hch
      cases hg'
      obtain ⟨hw, hh⟩ := hfalse hch
      refine ⟨by rw [hret]; exact hch, ?_, ?_⟩
      · show r.1.font_width = st.font_width
        rw [hfw]
        exact hw
      · show r.1.font_height = st.font_height
        rw [hfh]
        exact hh

/-- A concrete frame snapshot carrying a font setting. -/
def font_snapshot : FrameSnapshot := ⟨⟨[], []⟩, test_style, some "Fira Code:h14"⟩

/-- Witness for C9 at a concrete input: a snapshot with a font setting that
the shaper reports as a change. -/
theorem c9_font_changed_witness :
    ∃ st' fc tr,
      Renderer.draw trivial_raster trivial_shaper test_renderer font_snapshot 0 =
        some (st', fc, tr) ∧
      (fc = true ↔ ∃ g, font_snapshot.guifont = some g ∧
        (trivial_shaper.update_font test_renderer.shaper g).2 = true) ∧
      (font_snapshot.guifont = none →
        fc = false ∧ st'.font_width = test_renderer.font_width ∧
          st'.font_height = test_renderer.font_height) ∧
      (∀ g, font_snapshot.guifont = some g →
        (trivial_shaper.update_font test_renderer.shaper g).2 = true →
        st'.font_width =
          (trivial_shaper.font_base_dimensions (trivial_shaper.update_font test_renderer.shaper g).1).1 ∧
        st'.font_height =
          ((⌈(trivial_shaper.font_base_dimensions (trivial_shaper.update_font test_renderer.shaper g).1).2⌉ : ℤ) : ℚ)) ∧
      (∀ g, font_snapshot.guifont = some g →
        (trivial_shaper.update_font test_renderer.shaper g).2 = false →
        fc = false ∧ st'.font_width = test_renderer.font_width ∧
          st'.font_height = test_renderer.font_height) :=
  c9_font_changed trivial_raster trivial_shaper test_renderer font_snapshot 0 3 rfl

/-! ### C8 -/

/-- The characterization, following the spec's words (§4.3 step 6, §4.4
step 7), of the frame's window-region list: one entry per window in
declared order, each entry `(grid_id, rect(smoothed_position, pixel_size))`
evaluated at the state reached after drawing the preceding windows. -/
def regions_match {σ : Type} (A : RasterModel) (m : CachingShaper σ) (ds : Style) :
    Renderer σ → List WindowRenderInfo → List (ℕ × Rect) → Prop
  | _, [], rs => rs = []
  | st, w :: ws, rs =>
    ∃ (r1 : Renderer σ × (ℕ × Rect) × List RootEvent) (rest : List (ℕ × Rect)),
      draw_window A m st w ds = some r1 ∧
      rs = spec_window_entry st w :: rest ∧
      regions_match A m ds r1.1 ws rest

theorem regions_match_length {σ : Type} (A : RasterModel) (m : CachingShaper σ) (ds : Style) :
    ∀ (ws : List WindowRenderInfo) (st : Renderer σ) (rs : List (ℕ × Rect)),
      regions_match A m ds st ws rs → rs.length = ws.length := by
  intro ws
  induction ws with
  | nil =>
    intro st rs h
    rw [show rs = [] from h]
    rfl
  | cons w ws ih =>
    intro st rs h
    obtain ⟨r1, rest, _, hrs, hm⟩ := h
    rw [hrs]
    simp [ih r1.1 rest hm]

theorem regions_match_unique {σ : Type} (A : RasterModel) (m : CachingShaper σ) (ds : Style) :
    ∀ (ws : List WindowRenderInfo) (st : Renderer σ) (rs1 rs2 : List (ℕ × Rect)),
      regions_match A m ds st ws rs1 → regions_match A m ds st ws rs2 → rs1 = rs2 := by
  intro ws
  induction ws with
  | nil =>
    intro st rs1 rs2 h1 h2
    rw [show rs1 = [] from h1, show rs2 = [] from h2]
  | cons w ws ih =>
    intro st rs1 rs2 h1 h2
    obtain ⟨r1, rest1, hd1, he1, hm1⟩ := h1
    obtain ⟨r2, rest2, hd2, he2, hm2⟩ := h2
    rw [hd1, Option.some.injEq] at hd2
    rw [he1, he2, ih r1.1 rest1 rest2 hm1 (by rw [hd2]; exact hm2)]

theorem draw_windows_regions {σ : Type} (A : RasterModel) (m : CachingShaper σ) (ds : Style) :
    ∀ (ws : List WindowRenderInfo) (st : Renderer σ)
      (r : Renderer σ × List (ℕ × Rect) × List RootEvent),
      draw_windows A m ds st ws = some r → regions_match A m ds st ws r.2.1 := by
  intro ws
  induction ws with
  | nil =>
    intro st r h
    simp only [draw_windows, Option.some.injEq] at h
    rw [← h]
    rfl
  | cons w ws ih =>
    intro st r h
    simp only [draw_windows] at h
    rcases h1 : draw_window A m st w ds with _ | r1
    · rw [h1] at h; simp at h
    · rw [h1] at h
      simp only [Option.some_bind] at h
      rcases h2 : draw_windows A m ds r1.1 ws with _ | r2
      · rw [h2] at h; simp at h
      · rw [h2] at h
        simp only [Option.map_some', Option.some.injEq] at h
        subst h
        obtain ⟨w', cache', p, _, _, _, hentry⟩ := draw_window_state A m st w ds r1 h1
        exact ⟨r1, r2.2.1, h1, by rw [hentry], ih r1.1 r2 h2⟩

/-- C8: under a present default background, the frame succeeds and its
published window-region list is characterized window by window: exactly one
entry per `WindowRenderInfo` in declared order, each entry
`(grid_id, rect(smoothed_position, pixel_size))` at the state reached after
the preceding windows; the list's length equals the windows count; and the
characterization determines the list uniquely — the published list is a
function of this frame's input alone, fully replacing the previous one. -/
theorem c8_window_regions {σ : Type} (A : RasterModel) (m : CachingShaper σ)
    (st : Renderer σ) (snap : FrameSnapshot) (dt : ℚ) (bg : Color)
    (hbg : snap.default_style.colors.background = some bg) :
    ∃ st1 : Renderer σ × Bool,
      (match snap.guifont with
        | some g => Renderer.update_font m st g
        | none => (st, false)) = st1 ∧
      ∃ st' fc tr, Renderer.draw A m st snap dt = some (st', fc, tr) ∧
        regions_match A m snap.default_style
          { st1.1 with rendered_windows := (remove_closed st1.1.rendered_windows
              snap.render_info.closed_window_ids) }
          snap.render_info.windows st'.window_regions ∧
        st'.window_regions.length = snap.render_info.windows.length ∧
        (∀ rs1 rs2, regions_match A m snap.default_style
            { st1.1 with rendered_windows := (remove_closed st1.1.rendered_windows
                snap.render_info.closed_window_ids) }
            snap.render_info.windows rs1 →
          regions_match A m snap.default_style
            { st1.1 with rendered_windows := (remove_closed st1.1.rendered_windows
                snap.render_info.closed_window_ids) }
            snap.render_info.windows rs2 → rs1 = rs2) := by
  have hst1ex : ∃ st1 : Renderer σ × Bool,
      (match snap.guifont with
        | some g => Renderer.update_font m st g
        | none => (st, false)) = st1 := by
    cases snap.guifont with
    | none => exact ⟨(st, false), rfl⟩
    | some g => exact ⟨Renderer.update_font m st g, rfl⟩
  obtain ⟨st1, hst1⟩ := hst1ex
  obtain ⟨r, hr⟩ := draw_windows_some A m snap.default_style bg hbg snap.render_info.windows
    { st1.1 with rendered_windows := (remove_closed st1.1.rendered_windows
        snap.render_info.closed_window_ids) }
  have hdraw := draw_unfold A m st snap dt bg hbg st1 hst1 r hr
  have hm : regions_match A m snap.default_style
      { st1.1 with rendered_windows := (remove_closed st1.1.rendered_windows
          snap.render_info.closed_window_ids) }
      snap.render_info.windows r.2.1 :=
    draw_windows_regions A m snap.default_style snap.render_info.windows _ r hr
  refine ⟨st1, hst1, _, _, _, hdraw, hm, regions_match_length A m snap.default_style _ _ _ hm,
    fun rs1 rs2 h1 h2 => regions_match_unique A m snap.default_style _ _ rs1 rs2 h1 h2⟩

/-- A concrete frame snapshot drawing one window (grid id 1, cleared). -/
def one_window_snapshot : FrameSnapshot := ⟨⟨[test_wri_clear], []⟩, test_style, none⟩

/-- Witness for C8 at a concrete input: one window, no font setting. -/
theorem c8_window_regions_witness :
    ∃ st1 : Renderer Unit × Bool,
      (match one_window_snapshot.guifont with
        | some g => Renderer.update_font trivial_shaper test_renderer g
        | none => (test_renderer, false)) = st1 ∧
      ∃ st' fc tr,
        Renderer.draw trivial_raster trivial_shaper test_renderer one_window_snapshot 0 =
          some (st', fc, tr) ∧
        regions_match trivial_raster trivial_shaper one_window_snapshot.default_style
          { st1.1 with rendered_windows := (remove_closed st1.1.rendered_windows
              one_window_snapshot.render_info.closed_window_ids) }
          one_window_snapshot.render_info.windows st'.window_regions ∧
        st'.window_regions.length = one_window_snapshot.render_info.windows.length ∧
        (∀ rs1 rs2, regions_match trivial_raster trivial_shaper one_window_snapshot.default_style
            { st1.1 with rendered_windows := (remove_closed st1.1.rendered_windows
                one_window_snapshot.render_info.closed_window_ids) }
            one_window_snapshot.render_info.windows rs1 →
          regions_match trivial_raster trivial_shaper one_window_snapshot.default_style
            { st1.1 with rendered_windows := (remove_closed st1.1.rendered_windows
                one_window_snapshot.render_info.closed_window_ids) }
            one_window_snapshot.render_info.windows rs2 → rs1 = rs2) :=
  c8_window_regions trivial_raster trivial_shaper test_renderer one_window_snapshot 0 3 rfl

/-! ### C1 -/

theorem Canvas.emit_clip (c : Canvas) (e : Event) : (c.emit e).clip = c.clip := rfl

theorem Canvas.emit_saved (c : Canvas) (e : Event) : (c.emit e).saved = c.saved := rfl

theorem Canvas.emit_events (c : Canvas) (e : Event) : (c.emit e).events = c.events ++ [e] := rfl

theorem text_blob_fold (pos : ℚ × ℚ) (p : Paint) :
    ∀ (blobs : List ℕ) (c : Canvas),
      (blobs.foldl (fun cv b => cv.draw_text_blob b pos p) c) =
        { c with events := c.events ++ blobs.map (fun b => Event.text_blob b pos c.clip p) } := by
  intro blobs
  induction blobs with
  | nil => intro c; simp
  | cons b bs ih =>
    intro c
    rw [List.foldl_cons, ih]
    simp [Canvas.draw_text_blob, Canvas.emit]

/-- C1 (amended): the canvas state mutated while processing one draw
command in the foreground pass — the clip region and the save stack — is
restored before the next command is processed.  (The paint attributes are
not restored; see the counterexample.) -/
theorem c1_clip_state_restored {σ : Type} (m : CachingShaper σ) (sh : σ) (fw fh : ℚ)
    (p : Paint) (cv : Canvas) (cmd : DrawCommand) (ds : Style) :
    (draw_foreground m sh fw fh p cv cmd ds).2.clip = cv.clip ∧
    (draw_foreground m sh fw fh p cv cmd ds).2.saved = cv.saved := by
  simp only [draw_foreground]
  split_ifs <;>
    simp [Canvas.save, Canvas.clip_rect, Canvas.restore, Canvas.draw_line,
      Canvas.draw_rect, text_blob_fold, Canvas.emit_clip, Canvas.emit_saved,
      Canvas.emit_events]

/-- A style requesting only an undercurl. -/
def undercurl_style : Style := ⟨⟨some 5, some 6, some 7⟩, false, false, false, true, false⟩

/-- A style requesting only a strikethrough. -/
def strikethrough_style : Style := ⟨⟨some 5, some 6, some 7⟩, false, false, false, false, true⟩

/-- A draw command with an undercurl style. -/
def undercurl_command : DrawCommand := ⟨(0, 0), 1, "", some undercurl_style⟩

/-- A draw command with a strikethrough style. -/
def strikethrough_command : DrawCommand := ⟨(0, 0), 1, "", some strikethrough_style⟩

/-- C1 (counterexample): paint state set while processing an earlier
command is observable while drawing a later command.  With an undercurl
command followed by a strikethrough command, the second command's
strikethrough line is drawn with stroke width 1 and the dash path effect
left over from the first command; the same strikethrough command processed
alone draws its line with stroke width 0 and no path effect.  Moreover
`draw_foreground` returns a paint whose path effect differs from the one it
was given, so the paint is not restored between commands. -/
theorem c1_paint_leak_counterexample :
    (repaint_window trivial_shaper () 1 1 Paint.initial test_style
        [undercurl_command, strikethrough_command]).2.events[3]? =
      some (Event.line (0, 1 / 2) (1, 1 / 2) (some (Rect.new 0 0 1 1))
        ⟨7, false, 1, some ([2, 2], 0)⟩) ∧
    (repaint_window trivial_shaper () 1 1 Paint.initial test_style
        [strikethrough_command]).2.events[1]? =
      some (Event.line (0, 1 / 2) (1, 1 / 2) (some (Rect.new 0 0 1 1))
        ⟨7, false, 0, none⟩) ∧
    (draw_foreground trivial_shaper () 1 1 Paint.initial Canvas.empty undercurl_command
        test_style).1.path_effect = some ([2, 2], 0) ∧
    Paint.initial.path_effect = none := by
  refine ⟨?_, ?_, ?_, rfl⟩ <;>
    norm_num [repaint_window, draw_background, draw_foreground, trivial_shaper,
      undercurl_command, strikethrough_command, undercurl_style, strikethrough_style,
      test_style, Style.background, Style.foreground, Style.special, Paint.initial,
      Canvas.empty, Canvas.save, Canvas.clip_rect, Canvas.restore, Canvas.draw_rect,
      Canvas.draw_line, Canvas.emit, compute_text_region, Rect.new, Rect.center_y,
      dash_path_effect, trim_end, Color.white]

/-! ### C7 -/

/-- The background-fill event `draw_background` records for one command:
the command's region, the canvas clip, and the incoming paint with its
color set to the command's resolved background color. -/
def background_event (fw fh : ℚ) (p : Paint) (ds : Style) (clip : Option Rect)
    (cmd : DrawCommand) : Event :=
  Event.rect (compute_text_region fw fh cmd.grid_position cmd.cell_width) clip
    { p with color := (cmd.style.getD ds).background ds.colors }

theorem bg_pass_spec (fw fh : ℚ) (ds : Style) :
    ∀ (cmds : List DrawCommand) (p : Paint) (cv : Canvas),
      (cmds.foldl (fun pc cmd => draw_background fw fh pc.1 pc.2 cmd ds) (p, cv)).2 =
        { cv with events := cv.events ++ cmds.map (background_event fw fh p ds cv.clip) } := by
  intro cmds
  induction cmds with
  | nil => intro p cv; simp
  | cons cmd cmds ih =>
    intro p cv
    rw [List.foldl_cons,
      show draw_background fw fh p cv cmd ds =
        ({ p with color := (cmd.style.getD ds).background ds.colors },
         cv.draw_rect (compute_text_region fw fh cmd.grid_position cmd.cell_width)
           { p with color := (cmd.style.getD ds).background ds.colors }) from rfl,
      ih]
    rw [show background_event fw fh
        { p with color := (cmd.style.getD ds).background ds.colors } ds
        (cv.draw_rect (compute_text_region fw fh cmd.grid_position cmd.cell_width)
          { p with color := (cmd.style.getD ds).background ds.colors }).clip =
        background_event fw fh p ds cv.clip from funext fun _ => rfl]
    simp [Canvas.draw_rect, Canvas.emit, background_event]

/-- One foreground-pass command run against a fresh canvas with the paint
threaded through: the per-command event chunks, in submission order. -/
def foreground_chunks {σ : Type} (m : CachingShaper σ) (sh : σ) (fw fh : ℚ) (ds : Style) :
    Paint → List DrawCommand → List (List Event)
  | _, [] => []
  | p, cmd :: cmds =>
    (draw_foreground m sh fw fh p Canvas.empty cmd ds).2.events ::
      foreground_chunks m sh fw fh ds (draw_foreground m sh fw fh p Canvas.empty cmd ds).1 cmds

theorem draw_foreground_frame {σ : Type} (m : CachingShaper σ) (sh : σ) (fw fh : ℚ)
    (p : Paint) (cmd : DrawCommand) (ds : Style) (cv : Canvas) (hclip : cv.clip = none) :
    draw_foreground m sh fw fh p cv cmd ds =
      ((draw_foreground m sh fw fh p Canvas.empty cmd ds).1,
       { cv with events := cv.events ++
          (draw_foreground m sh fw fh p Canvas.empty cmd ds).2.events }) := by
  simp only [draw_foreground]
  split_ifs <;>
    simp [Canvas.save, Canvas.clip_rect, Canvas.restore, Canvas.draw_line, Canvas.empty,
      text_blob_fold, Canvas.emit_clip, Canvas.emit_saved, Canvas.emit_events, hclip]

theorem fg_pass_chunks {σ : Type} (m : CachingShaper σ) (sh : σ) (fw fh : ℚ) (ds : Style) :
    ∀ (cmds : List DrawCommand) (pc : Paint × Canvas), pc.2.clip = none →
      (cmds.foldl (fun pc cmd => draw_foreground m sh fw fh pc.1 pc.2 cmd ds) pc).2.events =
        pc.2.events ++ (foreground_chunks m sh fw fh ds pc.1 cmds).flatten := by
  intro cmds
  induction cmds with
  | nil => intro pc _; simp [foreground_chunks]
  | cons cmd cmds ih =>
    intro pc h
    rw [List.foldl_cons, draw_foreground_frame m sh fw fh pc.1 cmd ds pc.2 h]
    rw [ih ((draw_foreground m sh fw fh pc.1 Canvas.empty cmd ds).1,
        { pc.2 with events := pc.2.events ++
            (draw_foreground m sh fw fh pc.1 Canvas.empty cmd ds).2.events }) h]
    simp [foreground_chunks]

theorem draw_foreground_events_kinds {σ : Type} (m : CachingShaper σ) (sh : σ)
    (fw fh : ℚ) (p : Paint) (cmd : DrawCommand) (ds : Style) :
    ∀ e ∈ (draw_foreground m sh fw fh p Canvas.empty cmd ds).2.events,
      e.is_background_fill = false := by
  simp only [draw_foreground]
  split_ifs <;>
    simp [Canvas.save, Canvas.clip_rect, Canvas.restore, Canvas.draw_line, Canvas.empty,
      text_blob_fold, Canvas.emit_clip, Canvas.emit_saved, Canvas.emit_events,
      Event.is_background_fill] <;>
    (try intro e he) <;>
    aesop

theorem foreground_chunks_not_rect {σ : Type} (m : CachingShaper σ) (sh : σ)
    (fw fh : ℚ) (ds : Style) :
    ∀ (cmds : List DrawCommand) (p : Paint) (e : Event),
      e ∈ (foreground_chunks m sh fw fh ds p cmds).flatten → e.is_background_fill = false := by
  intro cmds
  induction cmds with
  | nil => intro p e he; simp [foreground_chunks] at he
  | cons cmd cmds ih =>
    intro p e he
    simp only [foreground_chunks, List.flatten_cons] at he
    rcases List.mem_append.mp he with h | h
    · exact draw_foreground_events_kinds m sh fw fh p cmd ds e h
    · exact ih _ e h

/-- C7: the repaint of a window is two complete passes over the same
ordered command list: the emitted trace is the background-fill events, one
per command in submission order, followed by the foreground chunks, one per
command in submission order; every event of the first block is a background
fill and no event of the second block is, so no foreground drawing precedes
any background fill. -/
theorem c7_two_pass {σ : Type} (m : CachingShaper σ) (sh : σ) (fw fh : ℚ) (p : Paint)
    (ds : Style) (cmds : List DrawCommand) :
    (repaint_window m sh fw fh p ds cmds).2.events =
      cmds.map (background_event fw fh p ds none) ++
        (foreground_chunks m sh fw fh ds
          (cmds.foldl (fun pc cmd => draw_background fw fh pc.1 pc.2 cmd ds)
            (p, Canvas.empty)).1 cmds).flatten ∧
    (∀ e ∈ cmds.map (background_event fw fh p ds none), e.is_background_fill = true) ∧
    (∀ e ∈ (foreground_chunks m sh fw fh ds
        (cmds.foldl (fun pc cmd => draw_background fw fh pc.1 pc.2 cmd ds)
          (p, Canvas.empty)).1 cmds).flatten, e.is_background_fill = false) := by
  refine ⟨?_, ?_, ?_⟩
  · have hbg := bg_pass_spec fw fh ds cmds p Canvas.empty
    have hclip : (cmds.foldl (fun pc cmd => draw_background fw fh pc.1 pc.2 cmd ds)
        (p, Canvas.empty)).2.clip = none := by
      rw [hbg]
      rfl
    simp only [repaint_window]
    rw [fg_pass_chunks m sh fw fh ds cmds _ hclip, hbg]
    simp [Canvas.empty]
  · intro e he
    obtain ⟨cmd, _, rfl⟩ := List.mem_map.mp he
    simp [background_event, Event.is_background_fill]
  · exact fun e he => foreground_chunks_not_rect m sh fw fh ds cmds _ e he
